import Mathlib

/-!
Verification development for the eng-metrics repository (PR pickup-time
metrics collector).

The JavaScript sources are shallowly embedded as Lean definitions:

* timestamps are modelled as `Int` milliseconds since the Unix epoch
  (the value of a JS `Date`); `Math.floor(x / 1000)` on a millisecond
  difference is `Int.fdiv _ 1000`;
* `Array.prototype.sort` with the ascending numeric comparator
  `(a, b) => key(a) - key(b)` is a stable ascending sort, modelled with
  `List.insertionSort` (stable) over the key order;
* fallible operations return `Option` / `Except`; a JS function that
  returns `null` for an unscoreable input is total here and returns
  `none`, which models the "no metric" result.
-/

/-- A GitHub issue timeline event, as consumed by `calculatePickupTime`
(`github-client.js`): only the `event` kind and `created_at` timestamp
are read. -/
structure TimelineEvent where
  event : String
  created_at : Int
deriving DecidableEq, Repr

/-- A PR review submission, as consumed by `calculatePickupTime`: only
`submitted_at` is read. -/
structure ReviewEvent where
  submitted_at : Int
deriving DecidableEq, Repr

/-- The fields of a GitHub pull request object that the collector reads. -/
structure PullRequest where
  number : Nat
  html_url : String
  user_login : String
  base_ref : String
  base_repo_owner : String
  base_repo_name : String
  created_at : Int
  updated_at : Int
  draft : Bool
deriving DecidableEq, Repr

/-- An entry of the `readyForReviewEvents` working array built by
`calculatePickupTime`: a timestamp paired with the originating event
kind (`"ready_for_review"` from the timeline, or the synthetic
`"created_not_draft"`). -/
structure ReadyCandidate where
  time : Int
  eventKind : String
deriving DecidableEq, Repr

/-- The metric record returned by `calculatePickupTime` in
`github-client.js`. -/
structure PickupMetrics where
  repository : String
  prNumber : Nat
  prUrl : String
  prCreator : String
  targetBranch : String
  readyTime : Int
  firstReviewTime : Int
  reviewDate : String
  pickupTimeSeconds : Int
  readyEventType : String
deriving DecidableEq, Repr

/-- Ordering of list elements by an integer key, ascending: the relation
sorted by the JS comparator `(a, b) => key(a) - key(b)`. -/
def byKey {α : Type} (key : α → Int) : α → α → Prop :=
  fun a b => key a ≤ key b

instance {α : Type} (key : α → Int) : DecidableRel (byKey key) :=
  fun a b => inferInstanceAs (Decidable (key a ≤ key b))

instance {α : Type} (key : α → Int) : IsTotal α (byKey key) :=
  ⟨fun a b => Int.le_total (key a) (key b)⟩

instance {α : Type} (key : α → Int) : IsTrans α (byKey key) :=
  ⟨fun _ _ _ hab hbc => Int.le_trans hab hbc⟩

/-- A stable ascending sort by an integer key: the model of
`array.sort((a, b) => key(a) - key(b))`. -/
def sortByKey {α : Type} (key : α → Int) (l : List α) : List α :=
  l.insertionSort (byKey key)

/-- Days-to-civil-date conversion (proleptic Gregorian, UTC), used to
model `Date.prototype.toISOString` taking the date part. -/
def civilFromDays (z0 : Int) : Int × Int × Int :=
  let z := z0 + 719468
  let era := Int.fdiv z 146097
  let doe := z - era * 146097
  let yoe := Int.fdiv (doe - Int.fdiv doe 1460 + Int.fdiv doe 36524 - Int.fdiv doe 146096) 365
  let y := yoe + era * 400
  let doy := doe - (365 * yoe + Int.fdiv yoe 4 - Int.fdiv yoe 100)
  let mp := Int.fdiv (5 * doy + 2) 153
  let d := doy - Int.fdiv (153 * mp + 2) 5 + 1
  let m := mp + (if mp < 10 then 3 else -9)
  (y + (if m ≤ 2 then 1 else 0), m, d)

/-- Zero-pads a (nonnegative) integer to two digits. -/
def pad2 (n : Int) : String :=
  if n < 10 then "0" ++ toString n else toString n

/-- Zero-pads a (nonnegative) integer to four digits. -/
def pad4 (n : Int) : String :=
  if n < 10 then "000" ++ toString n
  else if n < 100 then "00" ++ toString n
  else if n < 1000 then "0" ++ toString n
  else toString n

/-- The `YYYY-MM-DD` date part of `new Date(ms).toISOString()`, the model
of `firstReviewTime.toISOString().split('T')[0]`. -/
def isoDateOfMillis (ms : Int) : String :=
  let days := Int.fdiv ms 86400000
  let c := civilFromDays days
  pad4 c.1 ++ "-" ++ pad2 c.2.1 ++ "-" ++ pad2 c.2.2

/-- The working array of readiness candidates built at the top of
`calculatePickupTime` (before sorting): every `ready_for_review`
timeline event, plus a synthetic `created_not_draft` entry at the PR's
creation time when the PR's `draft` flag is false. -/
def readyPool (pr : PullRequest) (timelineEvents : List TimelineEvent) : List ReadyCandidate :=
  let fromTimeline :=
    (timelineEvents.filter (fun e => e.event == "ready_for_review")).map
      (fun e => ReadyCandidate.mk e.created_at e.event)
  if !pr.draft then
    fromTimeline ++ [ReadyCandidate.mk pr.created_at "created_not_draft"]
  else
    fromTimeline

/-- The candidate array after `readyForReviewEvents.sort((a, b) => a.time - b.time)`. -/
def sortedReadyEvents (pr : PullRequest) (timelineEvents : List TimelineEvent) : List ReadyCandidate :=
  sortByKey ReadyCandidate.time (readyPool pr timelineEvents)

/-- The tail of `calculatePickupTime` once the first-review time is
known: select the most recent ready candidate strictly before the first
review (`filter(... < firstReviewTime).pop()`), discard a negative
elapsed value, and otherwise build the metric record. -/
def pickupGivenFirstReview (pr : PullRequest) (readyForReviewEvents : List ReadyCandidate)
    (firstReviewTime : Int) : Option PickupMetrics :=
  match (readyForReviewEvents.filter (fun re => decide (re.time < firstReviewTime))).getLast? with
  | none => none
  | some relevantReadyEvent =>
    if Int.fdiv (firstReviewTime - relevantReadyEvent.time) 1000 < 0 then none
    else
      some {
        repository := pr.base_repo_owner ++ "/" ++ pr.base_repo_name
        prNumber := pr.number
        prUrl := pr.html_url
        prCreator := pr.user_login
        targetBranch := pr.base_ref
        readyTime := relevantReadyEvent.time
        firstReviewTime := firstReviewTime
        reviewDate := isoDateOfMillis firstReviewTime
        pickupTimeSeconds := Int.fdiv (firstReviewTime - relevantReadyEvent.time) 1000
        readyEventType :=
          if relevantReadyEvent.eventKind == "created_not_draft" then
            "PR creation (not draft)"
          else
            "ready_for_review event" }

/-- `GitHubClient.calculatePickupTime` from `github-client.js`: gather
ready candidates, bail out (`null`, here `none`) when there are no
candidates or no reviews, take the earliest review submission as the
first-review time, and hand over to `pickupGivenFirstReview`. -/
def calculatePickupTime (pr : PullRequest) (timelineEvents : List TimelineEvent)
    (reviewEvents : List ReviewEvent) : Option PickupMetrics :=
  if (sortedReadyEvents pr timelineEvents).isEmpty then none
  else if reviewEvents.isEmpty then none
  else
    match (sortByKey ReviewEvent.submitted_at reviewEvents).head? with
    | none => none
    | some firstReview =>
      pickupGivenFirstReview pr (sortedReadyEvents pr timelineEvents) firstReview.submitted_at

/-- Specification-side readiness-candidate timestamps: the
`ready_for_review` event times plus the creation time when the PR is not
a draft (spec §4.1, readiness resolution). -/
def readyCandidateTimes (pr : PullRequest) (timelineEvents : List TimelineEvent) : List Int :=
  (timelineEvents.filter (fun e => e.event == "ready_for_review")).map TimelineEvent.created_at
    ++ (if pr.draft then [] else [pr.created_at])

/-- Specification-side end instant for `time_to_first_review`: the
minimum review-submission time (spec §4.1, end-instant resolution). -/
def firstReviewInstant (reviewEvents : List ReviewEvent) : Option Int :=
  (reviewEvents.map ReviewEvent.submitted_at).min?

lemma readyPool_times (pr : PullRequest) (tl : List TimelineEvent) :
    (readyPool pr tl).map ReadyCandidate.time = readyCandidateTimes pr tl := by
  unfold readyPool readyCandidateTimes
  cases hd : pr.draft <;> simp [List.map_map, Function.comp]

lemma sortByKey_perm {α : Type} (key : α → Int) (l : List α) :
    (sortByKey key l).Perm l :=
  List.perm_insertionSort (byKey key) l

lemma sortByKey_sorted {α : Type} (key : α → Int) (l : List α) :
    (sortByKey key l).Pairwise (byKey key) :=
  List.sorted_insertionSort (byKey key) l

lemma sortByKey_eq_nil_iff {α : Type} (key : α → Int) (l : List α) :
    sortByKey key l = [] ↔ l = [] := by
  constructor
  · intro h
    have := sortByKey_perm key l
    rw [h] at this
    exact this.symm.eq_nil
  · intro h
    subst h
    rfl

lemma pairwise_getLast_le {α : Type} {R : α → α → Prop} :
    ∀ {l : List α} {b : α}, l.Pairwise R → l.getLast? = some b →
      ∀ a ∈ l, a = b ∨ R a b := by
  intro l
  induction l with
  | nil => intro b _ hb; simp at hb
  | cons x t ih =>
    intro b hp hb a ha
    cases t with
    | nil =>
      simp at hb
      subst hb
      simp at ha
      exact Or.inl ha
    | cons y u =>
      rw [List.getLast?_cons_cons] at hb
      rcases List.pairwise_cons.mp hp with ⟨hx, hp'⟩
      rcases List.mem_cons.mp ha with rfl | ha'
      · have hbmem : b ∈ y :: u := by
          have : (y :: u) ≠ [] := by simp
          rcases List.getLast?_eq_some_iff.mp hb with ⟨l', hl'⟩
          rw [hl']
          simp
        exact Or.inr (hx b hbmem)
      · exact ih hp' hb a ha'

lemma head_sortByKey_min {α : Type} (key : α → Int) (l : List α) (r : α)
    (h : (sortByKey key l).head? = some r) :
    r ∈ l ∧ ∀ x ∈ l, key r ≤ key x := by
  have hperm := sortByKey_perm key l
  have hsort := sortByKey_sorted key l
  cases hms : sortByKey key l with
  | nil => rw [hms] at h; simp at h
  | cons a t =>
    rw [hms] at h
    simp at h
    subst h
    rw [hms] at hperm hsort
    rcases List.pairwise_cons.mp hsort with ⟨ha, _⟩
    constructor
    · exact hperm.mem_iff.mp (List.mem_cons_self a t)
    · intro x hx
      rcases List.mem_cons.mp (hperm.mem_iff.mpr hx) with rfl | hxt
      · exact le_refl _
      · exact ha x hxt

lemma filtered_last_max {α : Type} (key : α → Int) (F : Int) (l : List α) (r : α)
    (h : ((sortByKey key l).filter (fun x => decide (key x < F))).getLast? = some r) :
    r ∈ l ∧ key r < F ∧ ∀ x ∈ l, key x < F → key x ≤ key r := by
  have hperm := sortByKey_perm key l
  have hsort : ((sortByKey key l).filter (fun x => decide (key x < F))).Pairwise (byKey key) :=
    (sortByKey_sorted key l).filter _
  have hrmem : r ∈ (sortByKey key l).filter (fun x => decide (key x < F)) := by
    rcases List.getLast?_eq_some_iff.mp h with ⟨l', hl'⟩
    rw [hl']
    simp
  rcases List.mem_filter.mp hrmem with ⟨hrs, hrF⟩
  refine ⟨hperm.mem_iff.mp hrs, by simpa using hrF, ?_⟩
  intro x hx hxF
  have hxs : x ∈ (sortByKey key l).filter (fun x => decide (key x < F)) :=
    List.mem_filter.mpr ⟨hperm.mem_iff.mpr hx, by simpa using hxF⟩
  rcases pairwise_getLast_le hsort h x hxs with rfl | hle
  · exact le_refl _
  · exact hle

lemma filtered_last_none {α : Type} (key : α → Int) (F : Int) (l : List α)
    (h : ((sortByKey key l).filter (fun x => decide (key x < F))).getLast? = none) :
    ∀ x ∈ l, ¬ key x < F := by
  rw [List.getLast?_eq_none_iff] at h
  intro x hx hxF
  have hxs : x ∈ (sortByKey key l).filter (fun x => decide (key x < F)) :=
    List.mem_filter.mpr ⟨(sortByKey_perm key l).mem_iff.mpr hx, by simpa using hxF⟩
  rw [h] at hxs
  simp at hxs

lemma firstReviewInstant_eq_some {rv : List ReviewEvent} {F : Int} :
    firstReviewInstant rv = some F ↔
      F ∈ rv.map ReviewEvent.submitted_at ∧ ∀ b ∈ rv.map ReviewEvent.submitted_at, F ≤ b := by
  unfold firstReviewInstant
  haveI : Std.Antisymm (fun (x1 x2 : Int) => x1 ≤ x2) :=
    ⟨by intro a b h h'; exact le_antisymm h h'⟩
  exact List.min?_eq_some_iff (fun a => le_refl a) (fun a b => min_choice a b)
    (fun a b c => le_min_iff)

lemma firstReviewInstant_ne_nil {rv : List ReviewEvent} {F : Int}
    (hF : firstReviewInstant rv = some F) : rv.isEmpty = false := by
  cases rv with
  | nil => simp [firstReviewInstant] at hF
  | cons a t => rfl

lemma head_sortByKey_of_ne_nil {rv : List ReviewEvent} (h : rv.isEmpty = false) :
    ∃ fr, (sortByKey ReviewEvent.submitted_at rv).head? = some fr := by
  cases hs : sortByKey ReviewEvent.submitted_at rv with
  | nil =>
    rw [sortByKey_eq_nil_iff] at hs
    subst hs
    simp at h
  | cons a t => exact ⟨a, rfl⟩

lemma head_eq_min {rv : List ReviewEvent} {fr : ReviewEvent} {F : Int}
    (hF : firstReviewInstant rv = some F)
    (hh : (sortByKey ReviewEvent.submitted_at rv).head? = some fr) :
    fr.submitted_at = F := by
  rcases head_sortByKey_min ReviewEvent.submitted_at rv fr hh with ⟨hmem, hmin⟩
  rcases firstReviewInstant_eq_some.mp hF with ⟨hFmem, hFmin⟩
  rcases List.mem_map.mp hFmem with ⟨r, hr, hrF⟩
  exact le_antisymm (hrF ▸ hmin r hr) (hFmin _ (List.mem_map_of_mem _ hmem))

lemma pickupGivenFirstReview_eq_some {pr : PullRequest} {ready : List ReadyCandidate}
    {F : Int} {m : PickupMetrics}
    (h : pickupGivenFirstReview pr ready F = some m) :
    ∃ rel, (ready.filter (fun re => decide (re.time < F))).getLast? = some rel ∧
      ¬ Int.fdiv (F - rel.time) 1000 < 0 ∧
      m.readyTime = rel.time ∧ m.firstReviewTime = F ∧
      m.pickupTimeSeconds = Int.fdiv (F - rel.time) 1000 := by
  unfold pickupGivenFirstReview at h
  split at h
  next => exact absurd h (by simp)
  next rel hrel =>
    by_cases hneg : Int.fdiv (F - rel.time) 1000 < 0
    · rw [if_pos hneg] at h
      exact absurd h (by simp)
    · rw [if_neg hneg] at h
      refine ⟨rel, hrel, hneg, ?_⟩
      injection h with h
      subst h
      exact ⟨rfl, rfl, rfl⟩

lemma pickupGivenFirstReview_eq_none {pr : PullRequest} {ready : List ReadyCandidate} {F : Int}
    (h : pickupGivenFirstReview pr ready F = none) :
    (ready.filter (fun re => decide (re.time < F))).getLast? = none
    ∨ ∃ rel, (ready.filter (fun re => decide (re.time < F))).getLast? = some rel ∧
        Int.fdiv (F - rel.time) 1000 < 0 := by
  unfold pickupGivenFirstReview at h
  split at h
  next hnone => exact Or.inl hnone
  next rel hrel =>
    by_cases hneg : Int.fdiv (F - rel.time) 1000 < 0
    · exact Or.inr ⟨rel, hrel, hneg⟩
    · rw [if_neg hneg] at h
      exact absurd h (by simp)

lemma calculatePickupTime_eq_some {pr : PullRequest} {tl : List TimelineEvent}
    {rv : List ReviewEvent} {m : PickupMetrics}
    (h : calculatePickupTime pr tl rv = some m) :
    ∃ fr, (sortByKey ReviewEvent.submitted_at rv).head? = some fr ∧
      pickupGivenFirstReview pr (sortedReadyEvents pr tl) fr.submitted_at = some m := by
  unfold calculatePickupTime at h
  by_cases h1 : (sortedReadyEvents pr tl).isEmpty = true
  · rw [if_pos h1] at h
    exact absurd h (by simp)
  · rw [if_neg h1] at h
    by_cases h2 : rv.isEmpty = true
    · rw [if_pos h2] at h
      exact absurd h (by simp)
    · rw [if_neg h2] at h
      split at h
      next => exact absurd h (by simp)
      next fr hfr => exact ⟨fr, hfr, h⟩

lemma calculatePickupTime_eq_none_inv {pr : PullRequest} {tl : List TimelineEvent}
    {rv : List ReviewEvent} (hne : rv.isEmpty = false)
    (h : calculatePickupTime pr tl rv = none) :
    (sortedReadyEvents pr tl).isEmpty = true
    ∨ ∃ fr, (sortByKey ReviewEvent.submitted_at rv).head? = some fr ∧
        pickupGivenFirstReview pr (sortedReadyEvents pr tl) fr.submitted_at = none := by
  unfold calculatePickupTime at h
  by_cases h1 : (sortedReadyEvents pr tl).isEmpty = true
  · exact Or.inl h1
  · rw [if_neg h1, hne] at h
    rw [if_neg (by simp)] at h
    split at h
    next hfr =>
      rcases head_sortByKey_of_ne_nil hne with ⟨fr, hfr'⟩
      rw [hfr'] at hfr
      exact absurd hfr (by simp)
    next fr hfr => exact Or.inr ⟨fr, hfr, h⟩

lemma pickup_none_of_no_candidate {pr : PullRequest} {tl : List TimelineEvent} {F : Int}
    (h : ∀ c ∈ readyCandidateTimes pr tl, ¬ c < F) :
    pickupGivenFirstReview pr (sortedReadyEvents pr tl) F = none := by
  have hfil : (sortedReadyEvents pr tl).filter (fun re => decide (re.time < F)) = [] := by
    rw [List.filter_eq_nil_iff]
    intro x hx
    have hxp : x ∈ readyPool pr tl := (sortByKey_perm ReadyCandidate.time _).mem_iff.mp hx
    have hxt : x.time ∈ readyCandidateTimes pr tl := by
      rw [← readyPool_times]
      exact List.mem_map_of_mem _ hxp
    simpa using h x.time hxt
  unfold pickupGivenFirstReview
  rw [hfil]
  rfl

/-- C1: the calculator's readiness-candidate set is exactly the
`ready_for_review` timestamps plus the creation timestamp when the PR is
not a draft; the ready instant used for `time_to_first_review` is the
latest candidate strictly earlier than the first-review time, and when
no candidate is strictly earlier the calculator returns no metric. -/
theorem pickup_ready_resolution (pr : PullRequest) (tl : List TimelineEvent)
    (rv : List ReviewEvent) (F : Int) (hF : firstReviewInstant rv = some F) :
    ((readyPool pr tl).map ReadyCandidate.time = readyCandidateTimes pr tl)
    ∧ (∀ m, calculatePickupTime pr tl rv = some m →
        m.readyTime ∈ readyCandidateTimes pr tl ∧ m.readyTime < F ∧
        ∀ c ∈ readyCandidateTimes pr tl, c < F → c ≤ m.readyTime)
    ∧ ((∀ c ∈ readyCandidateTimes pr tl, ¬ c < F) → calculatePickupTime pr tl rv = none) := by
  refine ⟨readyPool_times pr tl, ?_, ?_⟩
  · intro m hm
    rcases calculatePickupTime_eq_some hm with ⟨fr, hh, hp⟩
    have hfrF : fr.submitted_at = F := head_eq_min hF hh
    rw [hfrF] at hp
    rcases pickupGivenFirstReview_eq_some hp with ⟨rel, hrel, _, hrt, _, _⟩
    rcases filtered_last_max ReadyCandidate.time F (readyPool pr tl) rel hrel with
      ⟨hrelmem, hrelF, hmax⟩
    rw [hrt]
    refine ⟨?_, hrelF, ?_⟩
    · rw [← readyPool_times]
      exact List.mem_map_of_mem _ hrelmem
    · intro c hc hcF
      rw [← readyPool_times] at hc
      rcases List.mem_map.mp hc with ⟨x, hx, rfl⟩
      exact hmax x hx hcF
  · intro hnone
    have hne := firstReviewInstant_ne_nil hF
    rcases head_sortByKey_of_ne_nil hne with ⟨fr, hh⟩
    have hfrF : fr.submitted_at = F := head_eq_min hF hh
    unfold calculatePickupTime
    by_cases h1 : (sortedReadyEvents pr tl).isEmpty = true
    · rw [if_pos h1]
    · rw [if_neg h1, hne, if_neg (by simp), hh]
      show pickupGivenFirstReview pr (sortedReadyEvents pr tl) fr.submitted_at = none
      rw [hfrF]
      exact pickup_none_of_no_candidate hnone

def pr125 : PullRequest :=
  ⟨125, "https://example.com/acme/widgets/pull/125", "alice", "main", "acme", "widgets",
    9000, 13000, true⟩

def tl125 : List TimelineEvent :=
  [⟨"ready_for_review", 10000⟩, ⟨"ready_for_review", 12000⟩]

def rv125 : List ReviewEvent := [⟨13000⟩]

def m125 : PickupMetrics :=
  ⟨"acme/widgets", 125, "https://example.com/acme/widgets/pull/125", "alice", "main",
    12000, 13000, "1970-01-01", 1, "ready_for_review event"⟩

/-- C1 witness: the spec's PR #125 scenario (ready events at two times,
review after both) picks the later ready event. -/
theorem pickup_ready_resolution_witness :
    (12000 : Int) ∈ readyCandidateTimes pr125 tl125 ∧ (12000 : Int) < 13000 ∧
      ∀ c ∈ readyCandidateTimes pr125 tl125, c < 13000 → c ≤ 12000 := by
  have h := (pickup_ready_resolution pr125 tl125 rv125 13000 (by rfl)).2.1 m125 (by rfl)
  simpa [m125] using h

/-- C2: for a PR with a non-empty review list, the end instant is the
minimum `submitted_at` over all review events; the produced record's
`firstReviewTime` equals that minimum, and replacing the review list by
just that earliest submission leaves the result unchanged. -/
theorem first_review_end_instant (pr : PullRequest) (tl : List TimelineEvent)
    (rv : List ReviewEvent) (F : Int) (hF : firstReviewInstant rv = some F) :
    (∀ m, calculatePickupTime pr tl rv = some m → m.firstReviewTime = F)
    ∧ calculatePickupTime pr tl rv = calculatePickupTime pr tl [ReviewEvent.mk F] := by
  have hne := firstReviewInstant_ne_nil hF
  constructor
  · intro m hm
    rcases calculatePickupTime_eq_some hm with ⟨fr, hh, hp⟩
    have hfrF : fr.submitted_at = F := head_eq_min hF hh
    rcases pickupGivenFirstReview_eq_some hp with ⟨_, _, _, _, hft, _⟩
    rw [hft, hfrF]
  · rcases head_sortByKey_of_ne_nil hne with ⟨fr, hh⟩
    have hfrF : fr.submitted_at = F := head_eq_min hF hh
    have hL : calculatePickupTime pr tl rv =
        (if (sortedReadyEvents pr tl).isEmpty = true then none
         else pickupGivenFirstReview pr (sortedReadyEvents pr tl) F) := by
      unfold calculatePickupTime
      by_cases h1 : (sortedReadyEvents pr tl).isEmpty = true
      · rw [if_pos h1, if_pos h1]
      · rw [if_neg h1, if_neg h1, hne, if_neg (by simp), hh]
        show pickupGivenFirstReview pr (sortedReadyEvents pr tl) fr.submitted_at = _
        rw [hfrF]
    have hR : calculatePickupTime pr tl [ReviewEvent.mk F] =
        (if (sortedReadyEvents pr tl).isEmpty = true then none
         else pickupGivenFirstReview pr (sortedReadyEvents pr tl) F) := by
      unfold calculatePickupTime
      by_cases h1 : (sortedReadyEvents pr tl).isEmpty = true
      · rw [if_pos h1, if_pos h1]
      · rw [if_neg h1, if_neg h1]
        rfl
    rw [hL, hR]

/-- C2 witness: with the single review at the minimum time the result is
unchanged (PR #125 scenario). -/
theorem first_review_end_instant_witness :
    calculatePickupTime pr125 tl125 rv125 = calculatePickupTime pr125 tl125 [ReviewEvent.mk 13000] :=
  (first_review_end_instant pr125 tl125 rv125 13000 (by rfl)).2

/-- C3: every produced metric record has `pickupTimeSeconds` equal to the
floor of the millisecond interval divided by 1000 and nonnegative; a
`none` result with a non-empty review list can only come from the
readiness conditions (no candidate strictly before the end instant), so
the negative-elapsed branch is unreachable. -/
theorem pickup_elapsed_invariant (pr : PullRequest) (tl : List TimelineEvent)
    (rv : List ReviewEvent) :
    (∀ m, calculatePickupTime pr tl rv = some m →
        m.pickupTimeSeconds = Int.fdiv (m.firstReviewTime - m.readyTime) 1000
          ∧ 0 ≤ m.pickupTimeSeconds)
    ∧ (∀ F, firstReviewInstant rv = some F → calculatePickupTime pr tl rv = none →
        ∀ c ∈ readyCandidateTimes pr tl, F ≤ c) := by
  constructor
  · intro m hm
    rcases calculatePickupTime_eq_some hm with ⟨fr, _, hp⟩
    rcases pickupGivenFirstReview_eq_some hp with ⟨rel, hrel, _, hrt, hft, hps⟩
    constructor
    · rw [hps, hft, hrt]
    · rcases filtered_last_max ReadyCandidate.time fr.submitted_at (readyPool pr tl) rel hrel
        with ⟨_, hrelF, _⟩
      rw [hps]
      exact Int.fdiv_nonneg (by omega) (by omega)
  · intro F hF hnone c hc
    have hne := firstReviewInstant_ne_nil hF
    rcases calculatePickupTime_eq_none_inv hne hnone with h1 | ⟨fr, hh, hp⟩
    · rw [List.isEmpty_iff] at h1
      unfold sortedReadyEvents at h1
      rw [sortByKey_eq_nil_iff] at h1
      rw [← readyPool_times, h1] at hc
      simp at hc
    · have hfrF : fr.submitted_at = F := head_eq_min hF hh
      rw [hfrF] at hp
      rcases pickupGivenFirstReview_eq_none hp with hcase | ⟨rel, hrel, hneg⟩
      · have := filtered_last_none ReadyCandidate.time F (readyPool pr tl) hcase
        rw [← readyPool_times] at hc
        rcases List.mem_map.mp hc with ⟨x, hx, rfl⟩
        exact Int.not_lt.mp (this x hx)
      · rcases filtered_last_max ReadyCandidate.time F (readyPool pr tl) rel hrel
          with ⟨_, hrelF, _⟩
        exact absurd hneg (by push_neg; exact Int.fdiv_nonneg (by omega) (by omega))

/-- C3 witness: the PR #125 scenario produces a record whose elapsed
seconds equal the floored interval and are nonnegative. -/
theorem pickup_elapsed_invariant_witness :
    m125.pickupTimeSeconds = Int.fdiv (m125.firstReviewTime - m125.readyTime) 1000
      ∧ 0 ≤ m125.pickupTimeSeconds :=
  (pickup_elapsed_invariant pr125 tl125 rv125).1 m125 (by rfl)

/-- C4: on a well-formed but unscoreable PR the (total) calculator
returns the explicit no-metric result `none`: when the review list is
empty, when the readiness-candidate set is empty, and when no candidate
precedes the end instant. -/
theorem unscoreable_returns_none (pr : PullRequest) (tl : List TimelineEvent)
    (rv : List ReviewEvent) :
    (rv = [] → calculatePickupTime pr tl rv = none)
    ∧ (readyCandidateTimes pr tl = [] → calculatePickupTime pr tl rv = none)
    ∧ (∀ F, firstReviewInstant rv = some F →
        (∀ c ∈ readyCandidateTimes pr tl, F ≤ c) → calculatePickupTime pr tl rv = none) := by
  refine ⟨?_, ?_, ?_⟩
  · intro h
    subst h
    unfold calculatePickupTime
    by_cases h1 : (sortedReadyEvents pr tl).isEmpty = true
    · rw [if_pos h1]
    · rw [if_neg h1]
      rfl
  · intro h
    have hpool : readyPool pr tl = [] := by
      have := readyPool_times pr tl
      rw [h] at this
      exact List.map_eq_nil_iff.mp this
    have h1 : (sortedReadyEvents pr tl).isEmpty = true := by
      rw [List.isEmpty_iff]
      unfold sortedReadyEvents
      rw [sortByKey_eq_nil_iff]
      exact hpool
    unfold calculatePickupTime
    rw [if_pos h1]
  · intro F hF hge
    have hne := firstReviewInstant_ne_nil hF
    rcases head_sortByKey_of_ne_nil hne with ⟨fr, hh⟩
    have hfrF : fr.submitted_at = F := head_eq_min hF hh
    unfold calculatePickupTime
    by_cases h1 : (sortedReadyEvents pr tl).isEmpty = true
    · rw [if_pos h1]
    · rw [if_neg h1, hne, if_neg (by simp), hh]
      show pickupGivenFirstReview pr (sortedReadyEvents pr tl) fr.submitted_at = none
      rw [hfrF]
      exact pickup_none_of_no_candidate (fun c hc hlt => absurd (hge c hc) (Int.not_le.mpr hlt))

def pr127 : PullRequest :=
  ⟨127, "https://example.com/acme/widgets/pull/127", "bob", "main", "acme", "widgets",
    9000, 9000, true⟩

/-- C4 witness: a draft PR with no timeline events has no readiness
candidate, so even with a review the calculator returns `none`. -/
theorem unscoreable_returns_none_witness :
    calculatePickupTime pr127 [] [ReviewEvent.mk 8000] = none :=
  (unscoreable_returns_none pr127 [] [ReviewEvent.mk 8000]).2.2 8000 (by rfl)
    (by
      intro c hc
      rw [show readyCandidateTimes pr127 [] = [] from rfl] at hc
      exact absurd hc (List.not_mem_nil c))

/-- The filter applied to each fetched page in
`GitHubClient.fetchPullRequests`: keep PRs updated on/after `since`
whose base branch equals the target branch. -/
def matchesFilter (since : Int) (targetBranch : String) (pr : PullRequest) : Bool :=
  decide (since ≤ pr.updated_at) && (pr.base_ref == targetBranch)

/-- `GitHubClient.fetchPullRequests` from `github-client.js`, with the
paginated API modelled as the list of successive page responses (the
response to page `i` is `pages[i-1]`, and `[]` past the end). The loop
pushes the filtered page and advances only when the filtered page is
non-empty, stops when it is empty, and also stops after a page shorter
than the page size of 100. -/
def fetchPullRequests (since : Int) (targetBranch : String)
    (pages : List (List PullRequest)) : List PullRequest :=
  match pages with
  | [] => []
  | page :: rest =>
    if (page.filter (matchesFilter since targetBranch)).isEmpty then []
    else if page.length < 100 then page.filter (matchesFilter since targetBranch)
    else page.filter (matchesFilter since targetBranch) ++
      fetchPullRequests since targetBranch rest

/-- A recently-updated PR whose base branch is not the target branch. -/
def prOtherBranch : PullRequest :=
  ⟨11, "https://example.com/acme/widgets/pull/11", "carol", "dev", "acme", "widgets",
    0, 100, false⟩

/-- A recently-updated PR on the target branch, sitting on the second page. -/
def prOnPageTwo : PullRequest :=
  ⟨12, "https://example.com/acme/widgets/pull/12", "dave", "main", "acme", "widgets",
    0, 100, false⟩

/-- C5: contrary to the claim, `fetchPullRequests` stops at the first
page that contains zero matching PRs even when that page is full (100
items, so the API did not signal end-of-results): a matching PR on the
next page is dropped. -/
theorem fetch_stops_at_unmatched_page :
    fetchPullRequests 0 "main" [List.replicate 100 prOtherBranch, [prOnPageTwo]] = []
    ∧ matchesFilter 0 "main" prOnPageTwo = true
    ∧ (List.replicate 100 prOtherBranch).length = 100 := by
  refine ⟨?_, rfl, rfl⟩
  rfl

/-- The error shape inspected by the rate-limit handler in
`github-client.js`: HTTP status, the `x-ratelimit-remaining` header, and
the parsed `x-ratelimit-reset` header (epoch seconds; `none` models a
missing or unparsable header, whose `NaN` wait never satisfies the
bounds). -/
structure FetchError where
  status : Nat
  rateLimitRemaining : Option String
  rateLimitReset : Option Int
deriving DecidableEq, Repr

/-- Outcome of the catch block shared by the three fetch operations of
`GitHubClient`: either retry after sleeping `sleepMs` milliseconds, or
rethrow the error. -/
inductive RetryDecision
  | retry (sleepMs : Int)
  | propagate
deriving DecidableEq, Repr

/-- Wait-time computation of the catch block, given the parsed reset
header: retry after `waitTime + 1000` ms exactly when
`0 < waitTime < 3600000` with `waitTime = reset * 1000 - Date.now()`;
a missing header (`NaN` wait) never satisfies the bounds. -/
def handleReset : Option Int → Int → RetryDecision
  | none, _ => RetryDecision.propagate
  | some resetSeconds, now =>
    if 0 < resetSeconds * 1000 - now && resetSeconds * 1000 - now < 3600000 then
      RetryDecision.retry (resetSeconds * 1000 - now + 1000)
    else RetryDecision.propagate

/-- The catch-block logic of `fetchPullRequests` (identical in
`fetchPRReviewEvents` and `fetchPRTimelineEvents`): the retry path is
taken only on HTTP 403 with remaining quota `'0'`; otherwise rethrow. -/
def handleFetchError (err : FetchError) (now : Int) : RetryDecision :=
  if err.status == 403 && err.rateLimitRemaining == some "0" then
    handleReset err.rateLimitReset now
  else RetryDecision.propagate

lemma handleReset_some (r now : Int) :
    handleReset (some r) now =
      if 0 < r * 1000 - now && r * 1000 - now < 3600000 then
        RetryDecision.retry (r * 1000 - now + 1000)
      else RetryDecision.propagate := rfl

/-- C8: a fetch operation retries exactly on a rate-limit failure whose
computed wait is strictly positive and strictly under one hour, and the
sleep lasts at least until the reported reset time; every other failure
propagates. -/
theorem rate_limit_retry_exact (err : FetchError) (now : Int) :
    ((∃ s, handleFetchError err now = RetryDecision.retry s) ↔
      (err.status = 403 ∧ err.rateLimitRemaining = some "0" ∧
        ∃ r, err.rateLimitReset = some r ∧
          0 < r * 1000 - now ∧ r * 1000 - now < 3600000))
    ∧ (∀ s, handleFetchError err now = RetryDecision.retry s →
        ∀ r ∈ err.rateLimitReset, r * 1000 ≤ now + s) := by
  constructor
  · constructor
    · rintro ⟨s, hs⟩
      unfold handleFetchError at hs
      by_cases hcond : (err.status == 403 && err.rateLimitRemaining == some "0") = true
      · rw [if_pos hcond] at hs
        rcases Bool.and_eq_true_iff.mp hcond with ⟨h403, hrem⟩
        refine ⟨by simpa using h403, by simpa using hrem, ?_⟩
        cases hreset : err.rateLimitReset with
        | none => rw [hreset] at hs; exact absurd hs (by simp [handleReset])
        | some r =>
          rw [hreset, handleReset_some] at hs
          by_cases hb : (decide (0 < r * 1000 - now) && decide (r * 1000 - now < 3600000)) = true
          · exact ⟨r, rfl, by simpa using (Bool.and_eq_true_iff.mp hb).1,
              by simpa using (Bool.and_eq_true_iff.mp hb).2⟩
          · rw [if_neg hb] at hs
            exact absurd hs (by simp)
      · rw [if_neg hcond] at hs
        exact absurd hs (by simp)
    · rintro ⟨h403, hrem, r, hreset, hpos, hlt⟩
      refine ⟨r * 1000 - now + 1000, ?_⟩
      unfold handleFetchError
      rw [if_pos (by simp [h403, hrem]), hreset, handleReset_some,
        if_pos (by simp [hpos, hlt])]
  · intro s hs r hr
    unfold handleFetchError at hs
    by_cases hcond : (err.status == 403 && err.rateLimitRemaining == some "0") = true
    · rw [if_pos hcond] at hs
      cases hreset : err.rateLimitReset with
      | none => rw [hreset] at hs; exact absurd hs (by simp [handleReset])
      | some r' =>
        rw [hreset, handleReset_some] at hs
        rw [hreset] at hr
        have hr' : r' = r := by simpa using hr
        subst hr'
        by_cases hb : (decide (0 < r' * 1000 - now) && decide (r' * 1000 - now < 3600000)) = true
        · rw [if_pos hb] at hs
          injection hs with hs
          have hb1 : 0 < r' * 1000 - now := by simpa using (Bool.and_eq_true_iff.mp hb).1
          omega
        · rw [if_neg hb] at hs
          exact absurd hs (by simp)
    · rw [if_neg hcond] at hs
      exact absurd hs (by simp)

/-- C8 witness: a rate-limited error with reset 10s and now 4s into the
epoch retries with an 11-second sleep, resuming after the reset time. -/
theorem rate_limit_retry_exact_witness :
    handleFetchError ⟨403, some "0", some 10⟩ 4000 = RetryDecision.retry 7000
    ∧ (10 : Int) * 1000 ≤ 4000 + 7000 :=
  ⟨by rfl, (rate_limit_retry_exact ⟨403, some "0", some 10⟩ 4000).2 7000 (by rfl) 10 rfl⟩

/-- The per-PR loop of `MetricsCollector.collectRepositoryMetrics`
(`metrics-collector.js`): for each PR, fetch its timeline and review
events (the external fetches are a parameter, `Except` modelling a
thrown error), compute the pickup time, and keep any produced record;
a per-PR fetch error is caught and that PR is skipped. -/
def collectRepositoryMetrics
    (fetchEvents : PullRequest → Except String (List TimelineEvent × List ReviewEvent)) :
    List PullRequest → List PickupMetrics
  | [] => []
  | pr :: rest =>
    (match fetchEvents pr with
     | Except.error _ => []
     | Except.ok (tl, rv) =>
       match calculatePickupTime pr tl rv with
       | some m => [m]
       | none => []) ++ collectRepositoryMetrics fetchEvents rest

/-- C9: a PR whose event fetch throws is skipped and the loop continues:
the metrics of the repository are exactly those of the PRs before plus
those of the PRs after the failing one. -/
theorem per_pr_failure_isolation
    (fetchEvents : PullRequest → Except String (List TimelineEvent × List ReviewEvent))
    (pre post : List PullRequest) (bad : PullRequest) (e : String)
    (h : fetchEvents bad = Except.error e) :
    collectRepositoryMetrics fetchEvents (pre ++ bad :: post)
      = collectRepositoryMetrics fetchEvents pre ++ collectRepositoryMetrics fetchEvents post := by
  induction pre with
  | nil =>
    simp only [List.nil_append, collectRepositoryMetrics, h]
  | cons p t ih =>
    simp only [List.cons_append, collectRepositoryMetrics, List.append_eq, ih,
      List.append_assoc]

def prA : PullRequest :=
  ⟨201, "https://example.com/acme/widgets/pull/201", "erin", "main", "acme", "widgets",
    1000, 5000, false⟩

def prBad : PullRequest :=
  ⟨202, "https://example.com/acme/widgets/pull/202", "frank", "main", "acme", "widgets",
    1000, 5000, false⟩

def prC : PullRequest :=
  ⟨203, "https://example.com/acme/widgets/pull/203", "grace", "main", "acme", "widgets",
    2000, 6000, false⟩

/-- A concrete event fetcher that throws for PR #202 and succeeds for
the others. -/
def fetchEventsExample
    (pr : PullRequest) : Except String (List TimelineEvent × List ReviewEvent) :=
  if pr.number == 202 then Except.error "network error"
  else Except.ok ([], [ReviewEvent.mk 4000])

/-- C9 witness: with PR #202 failing in the middle, the run still
produces the records of the surrounding PRs. -/
theorem per_pr_failure_isolation_witness :
    collectRepositoryMetrics fetchEventsExample [prA, prBad, prC]
      = collectRepositoryMetrics fetchEventsExample [prA]
        ++ collectRepositoryMetrics fetchEventsExample [prC] :=
  per_pr_failure_isolation fetchEventsExample [prA] [prC] prBad "network error" (by rfl)

/-- A row of the `first_review` BigQuery table, as produced by
`transformMetricsToRow` in `bigquery-client.js` for the
`time_to_first_review` metric kind. -/
structure FirstReviewRow where
  review_date : String
  pr_creator : String
  pr_url : String
  pickup_time_seconds : Int
  repository : String
  pr_number : Nat
  target_branch : String
  ready_time : Int
  first_review_time : Int
deriving DecidableEq, Repr

/-- `transformMetricsToRow` (the `time_to_first_review` case of the
metric-kind switch in `bigquery-client.js`). -/
def transformMetricsToRow (m : PickupMetrics) : FirstReviewRow :=
  ⟨m.reviewDate, m.prCreator, m.prUrl, m.pickupTimeSeconds, m.repository, m.prNumber,
    m.targetBranch, m.readyTime, m.firstReviewTime⟩

/-- The rows returned by the `WHERE pr_number IN (...)` existence query
of `checkExistingMetrics`, for a destination table modelled as its list
of rows. -/
def whereInQuery (table : List FirstReviewRow) (prNumbers : List Nat) : List FirstReviewRow :=
  table.filter (fun row => decide (row.pr_number ∈ prNumbers))

/-- `BigQueryClient.checkExistingMetrics`: the existence map from PR
number to a flag. A missing table reports every number as absent; a
query failure (the catch block) also reports every number as absent;
otherwise a requested number is flagged exactly when a returned row
carries it. -/
def checkExistingMetrics :
    Bool → Except Unit (List FirstReviewRow) → List Nat → Nat → Bool
  | false, _, _ => fun _ => false
  | true, Except.error _, _ => fun _ => false
  | true, Except.ok rows, prNumbers =>
    fun n => decide (n ∈ prNumbers) && rows.any (fun row => row.pr_number == n)

/-- The `newMetrics` filter of `uploadMetrics`: keep the metrics whose
PR number the existence map reports as absent. -/
def newMetricsOf (existing : Nat → Bool) (metrics : List PickupMetrics) : List PickupMetrics :=
  metrics.filter (fun m => ! existing m.prNumber)

/-- `BigQueryClient.uploadMetrics`, modelled over a destination table
given as its row list, the table-existence flag and the existence-query
outcome seen by `checkExistingMetrics`. Returns the table after the
call and the list of inserted rows (`table.insert` appends rows and
never updates). -/
def uploadMetrics (table : List FirstReviewRow) (tableExists : Bool)
    (queryResult : Except Unit (List FirstReviewRow)) (metrics : List PickupMetrics) :
    List FirstReviewRow × List FirstReviewRow :=
  if metrics.isEmpty then (table, [])
  else
    if (newMetricsOf
          (checkExistingMetrics tableExists queryResult (metrics.map PickupMetrics.prNumber))
          metrics).isEmpty then (table, [])
    else
      (table ++ (newMetricsOf
          (checkExistingMetrics tableExists queryResult (metrics.map PickupMetrics.prNumber))
          metrics).map transformMetricsToRow,
        (newMetricsOf
          (checkExistingMetrics tableExists queryResult (metrics.map PickupMetrics.prNumber))
          metrics).map transformMetricsToRow)

lemma checkExisting_success (table : List FirstReviewRow) (metrics : List PickupMetrics)
    (m : PickupMetrics) (hm : m ∈ metrics) :
    checkExistingMetrics true
        (Except.ok (whereInQuery table (metrics.map PickupMetrics.prNumber)))
        (metrics.map PickupMetrics.prNumber) m.prNumber
      = decide (m.prNumber ∈ table.map FirstReviewRow.pr_number) := by
  have h1 : m.prNumber ∈ metrics.map PickupMetrics.prNumber := List.mem_map_of_mem _ hm
  show (decide (m.prNumber ∈ metrics.map PickupMetrics.prNumber) &&
      (whereInQuery table (metrics.map PickupMetrics.prNumber)).any
        (fun row => row.pr_number == m.prNumber)) = _
  rw [Bool.eq_iff_iff]
  simp only [Bool.and_eq_true, decide_eq_true_eq, List.any_eq_true, whereInQuery,
    List.mem_filter, beq_iff_eq, List.mem_map]
  constructor
  · rintro ⟨_, ⟨row, ⟨hrowt, _⟩, heq⟩⟩
    exact ⟨row, hrowt, heq⟩
  · rintro ⟨row, hrowt, heq⟩
    exact ⟨⟨m, hm, rfl⟩, ⟨row, ⟨hrowt, ⟨m, hm, heq.symm⟩⟩, heq⟩⟩

/-- C6: with the table present and the existence query succeeding,
`uploadMetrics` inserts exactly the records whose PR number is absent
from the destination's `pr_number` column, and the new table state is
the old rows unchanged followed by the inserted rows. -/
theorem upload_dedup_inserts_only_absent (table : List FirstReviewRow)
    (metrics : List PickupMetrics) :
    (uploadMetrics table true
        (Except.ok (whereInQuery table (metrics.map PickupMetrics.prNumber))) metrics).2
      = (metrics.filter
          (fun m => !decide (m.prNumber ∈ table.map FirstReviewRow.pr_number))).map
            transformMetricsToRow
    ∧ (uploadMetrics table true
        (Except.ok (whereInQuery table (metrics.map PickupMetrics.prNumber))) metrics).1
      = table ++ (uploadMetrics table true
        (Except.ok (whereInQuery table (metrics.map PickupMetrics.prNumber))) metrics).2 := by
  have hcongr : newMetricsOf
      (checkExistingMetrics true
        (Except.ok (whereInQuery table (metrics.map PickupMetrics.prNumber)))
        (metrics.map PickupMetrics.prNumber)) metrics
      = metrics.filter (fun m => !decide (m.prNumber ∈ table.map FirstReviewRow.pr_number)) := by
    unfold newMetricsOf
    apply List.filter_congr
    intro x hx
    rw [checkExisting_success table metrics x hx]
  unfold uploadMetrics
  rw [hcongr]
  by_cases h0 : metrics.isEmpty = true
  · rw [if_pos h0]
    have h0' : metrics = [] := List.isEmpty_iff.mp h0
    subst h0'
    simp
  · rw [if_neg h0]
    by_cases h1 : (metrics.filter
        (fun m => !decide (m.prNumber ∈ table.map FirstReviewRow.pr_number))).isEmpty = true
    · rw [if_pos h1]
      have h1' := List.isEmpty_iff.mp h1
      rw [h1']
      simp
    · rw [if_neg h1]
      exact ⟨rfl, rfl⟩

/-- C10: when the existence query fails, `checkExistingMetrics` reports
every requested PR number as absent, so `uploadMetrics` inserts every
record of the batch; a number already stored then occurs at least twice
in the resulting table. -/
theorem dedup_disabled_on_read_error (table : List FirstReviewRow)
    (metrics : List PickupMetrics) :
    (∀ n, checkExistingMetrics true (Except.error ())
        (metrics.map PickupMetrics.prNumber) n = false)
    ∧ (uploadMetrics table true (Except.error ()) metrics).2
        = metrics.map transformMetricsToRow
    ∧ (uploadMetrics table true (Except.error ()) metrics).1
        = table ++ metrics.map transformMetricsToRow
    ∧ ∀ m ∈ metrics, m.prNumber ∈ table.map FirstReviewRow.pr_number →
        1 < ((uploadMetrics table true (Except.error ()) metrics).1.filter
              (fun row => row.pr_number == m.prNumber)).length := by
  have hall : newMetricsOf
      (checkExistingMetrics true (Except.error ()) (metrics.map PickupMetrics.prNumber))
      metrics = metrics := by
    unfold newMetricsOf checkExistingMetrics
    simp
  have h2 : (uploadMetrics table true (Except.error ()) metrics).2
      = metrics.map transformMetricsToRow := by
    unfold uploadMetrics
    rw [hall]
    by_cases h0 : metrics.isEmpty = true
    · rw [if_pos h0, List.isEmpty_iff.mp h0]
      rfl
    · rw [if_neg h0, if_neg h0]
  have h1 : (uploadMetrics table true (Except.error ()) metrics).1
      = table ++ metrics.map transformMetricsToRow := by
    unfold uploadMetrics
    rw [hall]
    by_cases h0 : metrics.isEmpty = true
    · rw [if_pos h0, List.isEmpty_iff.mp h0]
      simp
    · rw [if_neg h0, if_neg h0]
  refine ⟨fun n => rfl, h2, h1, ?_⟩
  intro m hm hstored
  rw [h1, List.filter_append, List.length_append]
  rcases List.mem_map.mp hstored with ⟨row, hrow, hrow_eq⟩
  have hta : 0 < (table.filter (fun row => row.pr_number == m.prNumber)).length :=
    List.length_pos_of_mem
      (List.mem_filter.mpr ⟨hrow, by simp [hrow_eq]⟩)
  have hrows : 0 < ((metrics.map transformMetricsToRow).filter
      (fun row => row.pr_number == m.prNumber)).length :=
    List.length_pos_of_mem
      (List.mem_filter.mpr ⟨List.mem_map_of_mem transformMetricsToRow hm, by simp [transformMetricsToRow]⟩)
  omega

def row7 : FirstReviewRow :=
  ⟨"2023-06-15", "alice", "https://example.com/acme/widgets/pull/7", 10,
    "acme/widgets", 7, "main", 0, 10000⟩

def metric7 : PickupMetrics :=
  ⟨"acme/widgets", 7, "https://example.com/acme/widgets/pull/7", "alice", "main",
    0, 10000, "2023-06-15", 10, "ready_for_review event"⟩

/-- C10 witness: with the existence query failing and PR #7 already
stored, the upload duplicates the row for PR #7. -/
theorem dedup_disabled_on_read_error_witness :
    1 < (((uploadMetrics [row7] true (Except.error ()) [metric7]).1).filter
          (fun row => row.pr_number == metric7.prNumber)).length :=
  (dedup_disabled_on_read_error [row7] [metric7]).2.2.2 metric7 (by simp)
    (by simp [row7, metric7])

/-- The configuration keys handled by `config.js` (default values, the
config file, and the environment loader). -/
inductive ConfigKey
  | repositories
  | githubToken
  | bigQueryProjectId
  | bigQueryDatasetId
  | bigQueryTableId
  | serviceAccountKeyPath
  | targetBranch
  | printOnly
  | lookbackDays
deriving DecidableEq, Repr

/-- A configuration value as it appears in the merged JS object. -/
inductive ConfigValue
  | str (s : String)
  | bool (b : Bool)
  | nat (n : Nat)
  | list (l : List String)
deriving DecidableEq, Repr

/-- `DEFAULT_CONFIG` from the standalone snapshot's `config.js`. -/
def defaultConfig : ConfigKey → Option ConfigValue
  | ConfigKey.targetBranch => some (ConfigValue.str "main")
  | ConfigKey.bigQueryDatasetId => some (ConfigValue.str "github_metrics")
  | ConfigKey.bigQueryTableId => some (ConfigValue.str "pr_pickup_time")
  | ConfigKey.lookbackDays => some (ConfigValue.nat 30)
  | ConfigKey.printOnly => some (ConfigValue.bool false)
  | _ => none

/-- JS whitespace test for `String.prototype.trim` (the characters the
configuration values can realistically carry). -/
def jsIsSpace (c : Char) : Bool :=
  c == ' ' || c == '\t' || c == '\n' || c == '\r'

/-- Character-level model of `String.prototype.split(sep)` for a
single-character separator. -/
def jsSplitAux (sep : Char) : List Char → List Char → List String
  | [], acc => [String.mk acc.reverse]
  | c :: rest, acc =>
    if c == sep then String.mk acc.reverse :: jsSplitAux sep rest []
    else jsSplitAux sep rest (c :: acc)

/-- `s.split(sep)` of JS, over the string's character list. -/
def jsSplit (sep : Char) (s : String) : List String :=
  jsSplitAux sep s.data []

/-- `s.trim()` of JS: strip whitespace from both ends. -/
def jsTrim (s : String) : String :=
  String.mk (((s.data.dropWhile jsIsSpace).reverse.dropWhile jsIsSpace).reverse)

/-- `s.includes(c)` of JS for a single character. -/
def jsIncludes (s : String) (c : Char) : Bool :=
  s.data.any (fun x => x == c)

/-- A process environment restricted to the variables `config.js` reads
(`none` = unset). -/
structure EnvState where
  repositories : Option String
  githubToken : Option String
  bigQueryProjectId : Option String
  bigQueryDatasetId : Option String
  bigQueryTableId : Option String
  serviceAccountKeyPath : Option String
  targetBranch : Option String
  printOnly : Option String
deriving DecidableEq, Repr

/-- `loadConfigFromEnv` of the standalone snapshot's `config.js`: the
returned object literal names all eight keys unconditionally, so every
one of them is a present property (outer `some`), whose value is the
environment value or JS `undefined` (inner `none`) when the variable is
unset; `printOnly` is always the defined boolean
`process.env.PRINT_ONLY === 'true'`. `lookbackDays` is not part of the
literal (outer `none`). -/
def loadConfigFromEnv (env : EnvState) : ConfigKey → Option (Option ConfigValue)
  | ConfigKey.repositories =>
    some (env.repositories.map
      (fun s => ConfigValue.list ((jsSplit ',' s).map jsTrim)))
  | ConfigKey.githubToken => some (env.githubToken.map ConfigValue.str)
  | ConfigKey.bigQueryProjectId => some (env.bigQueryProjectId.map ConfigValue.str)
  | ConfigKey.bigQueryDatasetId => some (env.bigQueryDatasetId.map ConfigValue.str)
  | ConfigKey.bigQueryTableId => some (env.bigQueryTableId.map ConfigValue.str)
  | ConfigKey.serviceAccountKeyPath => some (env.serviceAccountKeyPath.map ConfigValue.str)
  | ConfigKey.targetBranch => some (env.targetBranch.map ConfigValue.str)
  | ConfigKey.printOnly => some (some (ConfigValue.bool (env.printOnly == some "true")))
  | ConfigKey.lookbackDays => none

/-- The spread-merge `{ ...DEFAULT_CONFIG, ...fileConfig, ...envConfig }`
followed by the delete-undefined pass: a key present in the env object
takes the env value even when that value is `undefined` (in which case
the delete pass removes the key entirely); only keys absent from the env
object fall back to the file and then the defaults. -/
def mergeConfigs (file : ConfigKey → Option ConfigValue)
    (env : ConfigKey → Option (Option ConfigValue)) : ConfigKey → Option ConfigValue :=
  fun k =>
    match env k with
    | some v => v
    | none =>
      match file k with
      | some v => some v
      | none => defaultConfig k

/-- JS truthiness of `config[field]` for the merged values (an absent
key is `undefined`, hence falsy; an empty string is falsy; `0` is
falsy; an array is always truthy). -/
def truthy : Option ConfigValue → Bool
  | none => false
  | some (ConfigValue.str s) => !s.data.isEmpty
  | some (ConfigValue.bool b) => b
  | some (ConfigValue.nat n) => !(n == 0)
  | some (ConfigValue.list _) => true

/-- `validateConfig` from `config.js`: `repositories` and `githubToken`
always required; `bigQueryProjectId` and `serviceAccountKeyPath`
required unless `printOnly` is truthy; `repositories` must be a
non-empty array of strings containing a slash. -/
def validateConfig (c : ConfigKey → Option ConfigValue) : Bool :=
  truthy (c ConfigKey.repositories) && truthy (c ConfigKey.githubToken) &&
    (truthy (c ConfigKey.printOnly) ||
      (truthy (c ConfigKey.bigQueryProjectId) &&
        truthy (c ConfigKey.serviceAccountKeyPath))) &&
    (match c ConfigKey.repositories with
     | some (ConfigValue.list l) => !l.isEmpty && l.all (fun r => jsIncludes r '/')
     | _ => false)

/-- `loadConfig` of the standalone snapshot's `config.js` (the file
contents are a parameter, `none` per key modelling an absent key):
merge default, file, and environment layers, then validate; `none`
models the thrown `Invalid configuration` error. -/
def loadConfig (file : ConfigKey → Option ConfigValue) (env : EnvState) :
    Option (ConfigKey → Option ConfigValue) :=
  if validateConfig (mergeConfigs file (loadConfigFromEnv env)) then
    some (mergeConfigs file (loadConfigFromEnv env))
  else none

/-- An environment providing the required fields but leaving
`PRINT_ONLY` (and the optional keys) unset. -/
def envPrintOnlyUnset : EnvState :=
  ⟨some "acme/widgets", some "token-abc", some "gcp-project", none, none,
    some "key.json", none, none⟩

/-- A config file that sets `printOnly` to `true`. -/
def filePrintOnlyTrue : ConfigKey → Option ConfigValue
  | ConfigKey.printOnly => some (ConfigValue.bool true)
  | _ => none

/-- C7: contrary to the claim, in the standalone snapshot's `config.js`
a key set in the config file whose environment variable is unset does
not take the file's value: with `PRINT_ONLY` unset, the env layer still
contributes `printOnly = false`, which overrides the file's `true`. -/
theorem loadConfig_env_unset_overrides_file :
    (loadConfig filePrintOnlyTrue envPrintOnlyUnset).map
        (fun c => c ConfigKey.printOnly) = some (some (ConfigValue.bool false))
    ∧ filePrintOnlyTrue ConfigKey.printOnly = some (ConfigValue.bool true) :=
  ⟨rfl, rfl⟩
